import Mathlib

/-!
# Verification of the `go-shedule-tasks` scheduler (`src/main.go`)

Shallow embedding of the Go program in `src/main.go`: a periodic task
scheduler that runs shell scripts or commands on fixed intervals, one
mutex-guarded execution at a time per task.

Conventions of the embedding:
* Go strings are Lean `String`s (all inputs of interest are ASCII, where
  Go's byte indexing and Lean's character lists agree).
* `time.Duration` is an unbounded `Int` counting nanoseconds; the Go
  overflow checks of `time.ParseDuration` are omitted (no claim concerns
  inputs anywhere near the 64-bit range).
* A Go panic is modelled as `Option.none` in the function's result.
* Fallible functions return `Except String α`, carrying the error text.
* The goroutine/mutex behaviour of `runTask` is modelled as a small-step
  transition relation on the state of one task's mutex together with the
  program counters of all execution attempts dispatched for that task
  (no state is shared across distinct tasks, so one task suffices).
-/

namespace SchedTasks

/-! ## Go string primitives (`strings` package) -/

/-- Character-list version of `strings.Split(s, sep)` for a one-character
separator: Go's `Split` always returns at least one element, and returns
`[""]` on the empty string. -/
def splitCh (sep : Char) : List Char → List (List Char)
  | [] => [[]]
  | c :: cs =>
    if c == sep then [] :: splitCh sep cs
    else
      match splitCh sep cs with
      | [] => [[c]]
      | r :: rs => (c :: r) :: rs

/-- `charsPre p s` decides whether `p` is an initial segment of `s`. -/
def charsPre : List Char → List Char → Bool
  | [], _ => true
  | _ :: _, [] => false
  | a :: ps, b :: ss => a == b && charsPre ps ss

/-- `strings.HasSuffix(s, suffix)`. -/
def goHasSuffix (s suffix : String) : Bool :=
  charsPre suffix.data.reverse s.data.reverse

/-- `strings.Trim(s, cutset)`: remove all leading and trailing characters
contained in `cutset`. -/
def goTrim (s cutset : String) : String :=
  String.mk
    (((s.data.dropWhile cutset.data.contains).reverse.dropWhile
      cutset.data.contains).reverse)

/-! ## `time.ParseDuration` (Go standard library)

Modelled from the Go standard library source of `time.ParseDuration`
(outside this repository): optional sign, then one or more groups
`digits[.digits]unit`, with the special case that a bare `"0"` (after the
sign) is a valid zero duration.  Fractional parts are computed in exact
integer arithmetic where Go uses `float64`; they agree on every input
whose fraction scales exactly, and no claim involves a fractional
duration.  Overflow checks are omitted (durations are unbounded here). -/

/-- Consume leading decimal digits, accumulating their value
(`time.leadingInt`). Returns the value and the unconsumed rest. -/
def leadingInt : List Char → Nat → Nat × List Char
  | [], v => (v, [])
  | c :: cs, v =>
    if c.isDigit then leadingInt cs (v * 10 + (c.toNat - 48))
    else (v, c :: cs)

/-- Consume the digits of a fractional part (`time.leadingFraction`).
Returns the fraction value, its scale (a power of ten) and the rest. -/
def leadingFraction : List Char → Nat → Nat → Nat × Nat × List Char
  | [], f, scale => (f, scale, [])
  | c :: cs, f, scale =>
    if c.isDigit then leadingFraction cs (f * 10 + (c.toNat - 48)) (scale * 10)
    else (f, scale, c :: cs)

/-- Split off the unit token: the maximal leading run of characters that
are neither digits nor a decimal point. -/
def splitUnit : List Char → List Char × List Char
  | [] => ([], [])
  | c :: cs =>
    if c == '.' || c.isDigit then ([], c :: cs)
    else
      match splitUnit cs with
      | (u, r) => (c :: u, r)

/-- Nanosecond multiplier of a duration unit (`time.unitMap`). -/
def unitOf : List Char → Option Nat
  | ['n', 's'] => some 1
  | ['u', 's'] => some 1000
  | ['µ', 's'] => some 1000
  | ['μ', 's'] => some 1000
  | ['m', 's'] => some 1000000
  | ['s'] => some 1000000000
  | ['m'] => some 60000000000
  | ['h'] => some 3600000000000
  | _ => none

/-- The main loop of `time.ParseDuration`, accumulating nanoseconds.
Each genuine iteration consumes at least the (nonempty) unit token, so
fuel `length + 1` is never exhausted; the fuel-out branch only makes the
recursion obviously terminating. -/
def durLoop : Nat → List Char → Nat → Except String Nat
  | 0, _, _ => .error "time: invalid duration"
  | _, [], d => .ok d
  | fuel + 1, c :: cs, d =>
    if !(c == '.' || c.isDigit) then .error "time: invalid duration"
    else
      match leadingInt (c :: cs) 0 with
      | (v, s1) =>
        let pre := s1.length != (c :: cs).length
        match s1 with
        | '.' :: rest =>
          match leadingFraction rest 0 1 with
          | (f, scale, s2) =>
            let post := s2.length != rest.length
            if !pre && !post then .error "time: invalid duration"
            else
              match splitUnit s2 with
              | ([], _) => .error "time: missing unit in duration"
              | (u, s3) =>
                match unitOf u with
                | none => .error "time: unknown unit in duration"
                | some unit => durLoop fuel s3 (d + v * unit + f * unit / scale)
        | _ =>
          if !pre then .error "time: invalid duration"
          else
            match splitUnit s1 with
            | ([], _) => .error "time: missing unit in duration"
            | (u, s3) =>
              match unitOf u with
              | none => .error "time: unknown unit in duration"
              | some unit => durLoop fuel s3 (d + v * unit)

/-- Body of `time.ParseDuration` after the sign has been stripped. -/
def goParseDurationAbs (orig : String) (neg : Bool) (s : List Char) :
    Except String Int :=
  if s == ['0'] then .ok 0
  else if s.isEmpty then .error ("time: invalid duration " ++ orig)
  else
    match durLoop (s.length + 1) s 0 with
    | .error e => .error e
    | .ok d => .ok (if neg then -(d : Int) else (d : Int))

/-- `time.ParseDuration`: sign, special-case `"0"`, then the group loop. -/
def goParseDuration (str : String) : Except String Int :=
  match str.data with
  | '-' :: rest => goParseDurationAbs str true rest
  | '+' :: rest => goParseDurationAbs str false rest
  | cs => goParseDurationAbs str false cs

/-! ## Duration validation (`parseDurationStr`, `src/main.go:186-201`) -/

/-- `parseDurationStr`: parse with `time.ParseDuration`, pass its error
through, and additionally reject negative values.  (The accompanying
`log.Println` calls are side effects on the log sink and carry the same
text as the returned error.) -/
def parseDurationStr (durationText : String) : Except String Int :=
  match goParseDuration durationText with
  | .error err => .error err
  | .ok duration =>
    if duration < 0 then
      .error ("ERROR!: A duration had a negative value: " ++ durationText ++
        ". This application doesn't have the ability to time travel to the past to run tasks")
    else .ok duration

/-! ## The Task data model (`src/main.go:54-60` and the loop at 88-99) -/

/-- The `Task` struct.  The `mutex` field is per-task state modelled
separately by the execution transition system below; `timeBetweenRuns` is
nanoseconds. -/
structure Task where
  taskText : String
  isShellScript : Bool
  timeBetweenRuns : Int
  deriving DecidableEq, Repr

/-- The spec's enum view of a task's kind. -/
inductive TaskKind where
  | shellScript
  | command
  deriving DecidableEq, Repr

/-- The `kind` a task's stored `isShellScript` flag denotes. -/
def Task.kind (t : Task) : TaskKind :=
  if t.isShellScript then .shellScript else .command

/-- One iteration of the construction loop in `init`
(`src/main.go:88-99`): the stored text is the input trimmed of
surrounding double quotes, while the `.sh` suffix test runs on the
untrimmed input. -/
def mkTask (taskCommand : String) (d : Int) : Task :=
  { taskText := goTrim taskCommand "\"",
    isShellScript := goHasSuffix taskCommand ".sh",
    timeBetweenRuns := d }

/-! ## The Executor (`runCustomCommand`, `runBashFile`, `runAndLogTask`,
`src/main.go:246-273`) -/

/-- An `exec.Cmd` as built by `exec.Command(name, arg...)`: the program
path and the arguments after it. -/
structure Cmd where
  name : String
  args : List String
  deriving DecidableEq, Repr

/-- `runCustomCommand` (`src/main.go:247-250`): `exec.Command(command)`
passes the whole task text as the program path, with no arguments. -/
def runCustomCommand (command : String) : Cmd :=
  { name := command, args := [] }

/-- `runBashFile` (`src/main.go:253-256`):
`exec.Command("/usr/bin/bash", scriptPath)`. -/
def runBashFile (scriptPath : String) : Cmd :=
  { name := "/usr/bin/bash", args := [scriptPath] }

/-- The dispatch in the body of `runTask` (`src/main.go:239-243`),
without the mutex discipline (modelled separately below). -/
def dispatchTask (t : Task) : Cmd :=
  if t.isShellScript then runBashFile t.taskText
  else runCustomCommand t.taskText

/-- The outcome of `cmd.Run()`: normal exit with status 0 and the bytes
captured from standard output, or an error (failed start, non-zero exit,
or a kill). -/
inductive RunResult where
  | exited (out : String)
  | failed (errMsg : String)
  deriving DecidableEq, Repr

/-- Whether a line written to the log sink came from the failure or the
success branch. -/
inductive Outcome where
  | success
  | failure
  deriving DecidableEq, Repr

/-- One `log.Println` line of `runAndLogTask`, tagged with the branch
that produced it. -/
structure LogRecord where
  outcome : Outcome
  line : String
  deriving DecidableEq, Repr

/-- `runAndLogTask` (`src/main.go:259-273`): on error, log the error and
return; otherwise log `taskName - output`.  The returned list holds the
records this one invocation appends to the log sink, in order. -/
def runAndLogTask (result : RunResult) (taskName : String) : List LogRecord :=
  match result with
  | .failed err => [{ outcome := .failure, line := "ERROR!:  " ++ err }]
  | .exited out => [{ outcome := .success, line := taskName ++ " - " ++ out }]

/-! ## Task-file parsing (`parseTaskFileRow`, `parseTasksFile`,
`src/main.go:137-183`) -/

/-- `parseTaskFileRow` (`src/main.go:168-183`).  Go's `strings.Split`
result is indexed at 1 after only a `> 2` length check, so a row whose
split has a single field (no space in the row) hits
`splitTask[1]` out of range and panics: that panic is the `none`
result.  `some (.error e)` is a returned parse error, `some (.ok _)` a
parsed `(task, duration)` pair. -/
def parseTaskFileRow (fileRow : String) : Option (Except String (String × Int)) :=
  match splitCh ' ' fileRow.data with
  | splitTask =>
    if splitTask.length > 2 then
      some (.error ("ERROR!: Invalid row in a provided task file, can't parse " ++ fileRow))
    else
      match splitTask[1]? with
      | none => none
      | some durChars =>
        let task := String.mk (splitTask.headD [])
        match parseDurationStr (String.mk durChars) with
        | .ok duration => some (.ok (task, duration))
        | .error err => some (.error err)

/-- The scan loop of `parseTasksFile` (`src/main.go:151-158`) over the
rows of an opened file: rows whose parse returns an error are skipped,
and a row that panics aborts the whole program (`none`). -/
def parseTasksFileRows (rows : List String) : Option (List String × List Int) :=
  match rows with
  | [] => some ([], [])
  | row :: rest =>
    match parseTaskFileRow row with
    | none => none
    | some (.error _) => parseTasksFileRows rest
    | some (.ok (task, duration)) =>
      match parseTasksFileRows rest with
      | none => none
      | some (tasks, durations) => some (task :: tasks, duration :: durations)

/-- What `os.Open` finds at the task-file path: an unreadable file, or a
readable one with the given lines. -/
inductive FileAccess where
  | unreadable
  | readable (rows : List String)
  deriving DecidableEq, Repr

/-- `parseTasksFile` (`src/main.go:137-165`): on an open error, log once
and return two empty slices; otherwise scan the rows.  The second
component lists the lines this function itself logs (`none` in the first
component is a panic escaping from a row). -/
def parseTasksFile (fa : FileAccess) (taskFilePath : String) :
    Option (List String × List Int) × List String :=
  match fa with
  | .unreadable =>
    (some ([], []),
      ["ERROR!: Failed to open taskfile at " ++ taskFilePath ++
        ". Not running tasks defined in this file"])
  | .readable rows => (parseTasksFileRows rows, [])

/-! ## Startup (`init` and `main`, `src/main.go:62-123`) -/

/-- The task-construction loop of `init` (`src/main.go:88-99`): for each
index of `taskList`, build a `Task` from `taskList[i]` and
`durationList[i]`.  Indexing a too-short `durationList` panics (`none`);
the loop itself runs over `taskList`'s indices only, so surplus
durations are never read. -/
def buildTasks : List String → List Int → Option (List Task)
  | [], _ => some []
  | _ :: _, [] => none
  | t :: ts, d :: ds => (buildTasks ts ds).map (fun rest => mkTask t d :: rest)

/-- How a run of `init` ends. -/
inductive InitResult where
  | fatal (msg : String)
  | panicked
  | ok (tasks : List Task)
  deriving DecidableEq, Repr

/-- `init` (`src/main.go:62-103`), from the already-collected flag
values: fatal when strictly more `-task` flags than `-duration` flags
were given; otherwise append the task file's pairs (when a file path was
given) and build the global task list.  Log-file setup is outside the
claims and omitted. -/
def initRun (flagTasks : List String) (flagDurations : List Int)
    (fileFlag : Option (String × FileAccess)) : InitResult :=
  if flagTasks.length > flagDurations.length then
    .fatal "Not all tasks were provided with durations. Every task needs a matching duration value to continue"
  else
    match fileFlag with
    | none =>
      match buildTasks flagTasks flagDurations with
      | none => .panicked
      | some tasks => .ok tasks
    | some (path, fa) =>
      match (parseTasksFile fa path).1 with
      | none => .panicked
      | some (fileTasks, fileDurations) =>
        match buildTasks (flagTasks ++ fileTasks) (flagDurations ++ fileDurations) with
        | none => .panicked
        | some tasks => .ok tasks

/-- Whether an `InitResult` is the `log.Fatal` outcome. -/
def InitResult.isFatal : InitResult → Bool
  | .fatal _ => true
  | _ => false

/-- How `main` (`src/main.go:105-123`) proceeds: a fatal exit, or
scheduler loops running for the given tasks. -/
inductive MainResult where
  | fatalExit (msg : String)
  | running (tasks : List Task)
  deriving DecidableEq, Repr

/-- `main` (`src/main.go:105-123`): with an empty task list, `log.Fatal`
exits before any scheduler loop starts; otherwise one `scheduleTask`
loop runs per task (tasks 1.. as goroutines, task 0 on the main
goroutine). -/
def mainRun (tasks : List Task) : MainResult :=
  if tasks.length = 0 then .fatalExit "No tasks provided to the application"
  else .running tasks

/-- The tasks for which `mainRun` started a scheduler loop. -/
def startedLoops : MainResult → List Task
  | .fatalExit _ => []
  | .running tasks => tasks

/-! ## The exclusion discipline of `runTask` (`src/main.go:234-244`)

`runTask` is `defer task.mutex.Unlock(); task.mutex.Lock(); <invoke>`.
Each tick of `scheduleTask` dispatches one goroutine running `runTask`
on the same `Task`, so all attempts contend on that task's one mutex (no
state is shared across distinct tasks, so the model covers one task).
An attempt is either still waiting in `mutex.Lock()` (`dispatched`),
holding the mutex while the underlying process runs (`invoking`), or
returned after the deferred `Unlock` ran (`returned`). -/

/-- The program counter of one dispatched `runTask` goroutine. -/
inductive AttemptPhase where
  | dispatched
  | invoking
  | returned
  deriving DecidableEq, Repr

/-- The shared state of one task: its mutex and the phase of every
execution attempt dispatched so far. -/
structure TaskRunState where
  lockHeld : Bool
  attempts : List AttemptPhase
  deriving DecidableEq, Repr

/-- How one execution attempt ends: normal success, a failure reported
by `cmd.Run`, or an unexpected termination (a panic, which still runs
the deferred `Unlock`). -/
inductive ExitKind where
  | success
  | failure
  | terminated
  deriving DecidableEq, Repr

/-- The two atomic transitions of `runTask`:
* `acquire`: `mutex.Lock()` returns for attempt `i`, only when the mutex
  is free, and the attempt starts invoking the underlying process;
* `finish`: attempt `i`'s invocation ends with any `ExitKind` and
  `runTask` returns, the deferred `mutex.Unlock()` releasing the mutex
  on that exit path. -/
inductive RunStep : TaskRunState → TaskRunState → Prop where
  | acquire (s : TaskRunState) (i : Nat)
      (hp : s.attempts[i]? = some .dispatched) (hl : s.lockHeld = false) :
      RunStep s ⟨true, s.attempts.set i .invoking⟩
  | finish (s : TaskRunState) (i : Nat) (k : ExitKind)
      (hp : s.attempts[i]? = some .invoking) :
      RunStep s ⟨false, s.attempts.set i .returned⟩

/-- The initial state: `n` attempts dispatched, none yet holding the
mutex. -/
def initialRunState (n : Nat) : TaskRunState :=
  { lockHeld := false, attempts := List.replicate n .dispatched }

/-- The states one task's execution can reach by any interleaving. -/
def RunReachable (n : Nat) (s : TaskRunState) : Prop :=
  Relation.ReflTransGen RunStep (initialRunState n) s

/-- At most one attempt is invoking the underlying process. -/
def MutualExclusion (s : TaskRunState) : Prop :=
  ∀ i j : Nat, s.attempts[i]? = some AttemptPhase.invoking →
    s.attempts[j]? = some AttemptPhase.invoking → i = j

/-- The inductive invariant: a free mutex means nobody is invoking, and
invocations are mutually exclusive. -/
def RunInv (s : TaskRunState) : Prop :=
  (s.lockHeld = false → ∀ i : Nat, s.attempts[i]? ≠ some AttemptPhase.invoking) ∧
    MutualExclusion s

lemma runInv_initial (n : Nat) : RunInv (initialRunState n) := by
  constructor
  · intro _ i h
    rw [initialRunState] at h
    rw [List.getElem?_replicate] at h
    by_cases hi : i < n
    · rw [if_pos hi] at h
      exact absurd (Option.some.inj h) (by intro hc; cases hc)
    · rw [if_neg hi] at h
      exact absurd h (by intro hc; cases hc)
  · intro i j hi _
    exfalso
    rw [initialRunState] at hi
    rw [List.getElem?_replicate] at hi
    by_cases hic : i < n
    · rw [if_pos hic] at hi
      exact absurd (Option.some.inj hi) (by intro hc; cases hc)
    · rw [if_neg hic] at hi
      exact absurd hi (by intro hc; cases hc)

lemma runInv_step {s t : TaskRunState} (hinv : RunInv s) (hstep : RunStep s t) :
    RunInv t := by
  obtain ⟨hfree, hmux⟩ := hinv
  cases hstep with
  | acquire i hp hl =>
    have hnone := hfree hl
    have hlen : i < s.attempts.length := by
      by_contra hc
      rw [List.getElem?_eq_none (Nat.le_of_not_lt hc)] at hp
      cases hp
    constructor
    · intro hcontra
      cases hcontra
    · intro j k hj hk
      have hj' : j = i := by
        by_contra hne
        rw [List.getElem?_set_ne (fun he => hne he.symm)] at hj
        exact hnone j hj
      have hk' : k = i := by
        by_contra hne
        rw [List.getElem?_set_ne (fun he => hne he.symm)] at hk
        exact hnone k hk
      rw [hj', hk']
  | finish i k hp =>
    have hothers : ∀ j, j ≠ i → s.attempts[j]? ≠ some AttemptPhase.invoking := by
      intro j hne hj
      exact hne (hmux j i hj hp)
    constructor
    · intro _ j hj
      by_cases hji : j = i
      · subst hji
        have hlen : j < s.attempts.length := by
          by_contra hc
          rw [List.getElem?_eq_none (Nat.le_of_not_lt hc)] at hp
          cases hp
        rw [List.getElem?_set_self hlen] at hj
        exact absurd (Option.some.inj hj) (by intro hc; cases hc)
      · rw [List.getElem?_set_ne (fun he => hji he.symm)] at hj
        exact hothers j hji hj
    · intro j l hj hl
      exfalso
      by_cases hji : j = i
      · subst hji
        have hlen : j < s.attempts.length := by
          by_contra hc
          rw [List.getElem?_eq_none (Nat.le_of_not_lt hc)] at hp
          cases hp
        rw [List.getElem?_set_self hlen] at hj
        exact absurd (Option.some.inj hj) (by intro hc; cases hc)
      · rw [List.getElem?_set_ne (fun he => hji he.symm)] at hj
        exact hothers j hji hj

lemma runInv_reachable {n : Nat} {s : TaskRunState} (h : RunReachable n s) :
    RunInv s := by
  induction h with
  | refl => exact runInv_initial n
  | tail _ hstep ih => exact runInv_step ih hstep

/-! ## Helper lemmas about the construction loop -/

lemma buildTasks_eq_zipWith {ft : List String} {fd : List Int}
    (h : ft.length ≤ fd.length) :
    buildTasks ft fd = some (List.zipWith mkTask ft fd) := by
  induction ft generalizing fd with
  | nil => rfl
  | cons t ts ih =>
    cases fd with
    | nil => simp at h
    | cons d ds =>
      have hlen : ts.length ≤ ds.length := by
        simpa [Nat.succ_le_succ_iff] using h
      simp [buildTasks, ih hlen]

lemma buildTasks_take_length (ft : List String) (fd : List Int) :
    buildTasks ft (fd.take ft.length) = buildTasks ft fd := by
  induction ft generalizing fd with
  | nil => rfl
  | cons t ts ih =>
    cases fd with
    | nil => rfl
    | cons d ds => simp [buildTasks, List.take, ih]

/-! ## The claims -/

/-- C1: every execution attempt (`runTask`) acquires the task's
exclusion flag before invoking the underlying process and releases it on
every exit path, so in every state the scheduler can reach, at most one
execution of a given task is in flight: any two attempts currently
invoking the underlying process are the same attempt. -/
theorem runTask_mutual_exclusion (n : Nat) (s : TaskRunState)
    (h : RunReachable n s) : MutualExclusion s :=
  (runInv_reachable h).2

/-- Witness for C1: the state in which attempt 0 of two dispatched
attempts has acquired the mutex is reachable, and mutual exclusion holds
there. -/
theorem runTask_mutual_exclusion_witness :
    RunReachable 2 { lockHeld := true, attempts := [.invoking, .dispatched] } ∧
      MutualExclusion { lockHeld := true, attempts := [.invoking, .dispatched] } := by
  have hstep : RunStep (initialRunState 2)
      { lockHeld := true, attempts := [.invoking, .dispatched] } :=
    RunStep.acquire (initialRunState 2) 0 rfl rfl
  have hreach : RunReachable 2 { lockHeld := true, attempts := [.invoking, .dispatched] } :=
    Relation.ReflTransGen.single hstep
  exact ⟨hreach, runTask_mutual_exclusion 2 _ hreach⟩

/-- C2 counterexample: the `Command` task `"ping -c3 host"` is dispatched
with the whole identity string as the program path and an empty argument
list; `exec.Command(command)` performs no splitting, although the
identity does split into a program and two arguments. -/
theorem command_dispatch_not_split :
    dispatchTask (mkTask "ping -c3 host" 1000000000) =
      { name := "ping -c3 host", args := [] } ∧
    splitCh ' ' "ping -c3 host".data = ["ping".data, "-c3".data, "host".data] ∧
    ({ name := "ping -c3 host", args := [] } : Cmd) ≠
      { name := "ping", args := ["-c3", "host"] } := by
  refine ⟨rfl, rfl, by decide⟩

/-- C2 (amended): dispatch follows the task's kind, with a `ShellScript`
task invoked through `/usr/bin/bash` with the script path as its sole
argument, and a `Command` task invoked with the entire identity string
as the program path and no arguments (the identity is not split). -/
theorem dispatch_by_kind (t : Task) :
    (t.kind = .shellScript →
      dispatchTask t = { name := "/usr/bin/bash", args := [t.taskText] }) ∧
    (t.kind = .command →
      dispatchTask t = { name := t.taskText, args := [] }) := by
  constructor <;> intro hk <;>
    simp only [Task.kind] at hk <;>
    cases hsh : t.isShellScript <;>
    simp [hsh, dispatchTask, runBashFile, runCustomCommand] <;>
    simp [hsh] at hk

/-- Witness for C2 (amended): a shell-script task and a command task,
each dispatched per its kind. -/
theorem dispatch_by_kind_witness :
    dispatchTask (mkTask "script.sh" 1) =
      { name := "/usr/bin/bash", args := [(mkTask "script.sh" 1).taskText] } ∧
    dispatchTask (mkTask "ls -la" 1) =
      { name := (mkTask "ls -la" 1).taskText, args := [] } :=
  ⟨(dispatch_by_kind (mkTask "script.sh" 1)).1 (by decide),
   (dispatch_by_kind (mkTask "ls -la" 1)).2 (by decide)⟩

/-- C3 counterexample: the string `"0s"` parses to the zero duration and
`parseDurationStr` accepts it — zero is not rejected. -/
theorem zero_duration_accepted :
    goParseDuration "0s" = .ok 0 ∧ parseDurationStr "0s" = .ok 0 :=
  ⟨rfl, rfl⟩

/-- C3 (amended): of the durations `time.ParseDuration` accepts,
`parseDurationStr` rejects exactly the strictly negative ones before the
engine starts scheduling; zero and positive durations are accepted. -/
theorem parseDurationStr_rejects_only_negative (s : String) (d : Int)
    (h : goParseDuration s = .ok d) :
    (d < 0 → ∃ e, parseDurationStr s = .error e) ∧
    (0 ≤ d → parseDurationStr s = .ok d) := by
  constructor
  · intro hd
    refine ⟨"ERROR!: A duration had a negative value: " ++ s ++
      ". This application doesn't have the ability to time travel to the past to run tasks", ?_⟩
    simp only [parseDurationStr, h]
    rw [if_pos hd]
  · intro hd
    simp only [parseDurationStr, h]
    rw [if_neg (by omega)]

/-- Witness for C3 (amended): `"-5s"` parses to a negative duration and
is rejected. -/
theorem parseDurationStr_rejects_only_negative_witness :
    goParseDuration "-5s" = .ok (-5000000000) ∧
      (∃ e, parseDurationStr "-5s" = .error e) :=
  ⟨rfl,
   (parseDurationStr_rejects_only_negative "-5s" (-5000000000) rfl).1
     (by decide)⟩

/-- C4: every execution attempt appends exactly one record to the log
sink — on a failed run one failure record carrying the error detail, on
a successful run one success record carrying the task identity and the
captured standard output. -/
theorem runAndLogTask_exactly_one_record (r : RunResult)
    (taskName out err : String) :
    (runAndLogTask r taskName).length = 1 ∧
    runAndLogTask (.failed err) taskName =
      [{ outcome := .failure, line := "ERROR!:  " ++ err }] ∧
    runAndLogTask (.exited out) taskName =
      [{ outcome := .success, line := taskName ++ " - " ++ out }] := by
  refine ⟨?_, rfl, rfl⟩
  cases r <;> rfl

/-- C5: the code, at the failing input: a task-file row with no space
(here `"echo"`, a task with its duration missing) makes
`parseTaskFileRow` index `splitTask[1]` out of range and panic (`none`),
and that panic aborts the parse of the whole file instead of skipping
the row — rows before and after the malformed one are lost too. -/
theorem parseTaskFileRow_spaceless_row_panics :
    parseTaskFileRow "echo" = none ∧
    parseTasksFileRows ["task1 1s", "echo", "task2 2s"] = none :=
  ⟨rfl, rfl⟩

/-- C6: with an empty constructed task set, `main` reports a fatal error
and exits before any scheduler loop is started. -/
theorem main_empty_tasks_fatal :
    mainRun [] = .fatalExit "No tasks provided to the application" ∧
    startedLoops (mainRun []) = [] :=
  ⟨rfl, rfl⟩

/-- C7: kind classification is a pure function of the identity string,
fixed at construction: `"script.sh"` always classifies as `ShellScript`
and `"ping -c3 host"` always as `Command`, independent of the interval
and identical on every evaluation. -/
theorem kind_classification_deterministic (d d2 : Int) :
    (mkTask "script.sh" d).kind = .shellScript ∧
    (mkTask "ping -c3 host" d).kind = .command ∧
    (mkTask "script.sh" d).kind = (mkTask "script.sh" d2).kind ∧
    (mkTask "ping -c3 host" d).kind = (mkTask "ping -c3 host" d2).kind :=
  ⟨rfl, rfl, rfl, rfl⟩

/-- C8: the stored identity is the input with surrounding double quotes
trimmed, but the `.sh` test runs on the untrimmed input: every input
ending in a double quote is classified `Command`, and in particular
`"foo.sh"` (quotes included) stores identity `foo.sh` — which does end
in `.sh` — yet is classified `Command`. -/
theorem quoted_script_classified_command (s : String) (rest : List Char)
    (d : Int) (h : s.data.reverse = '"' :: rest) :
    (mkTask s d).kind = .command ∧
    (mkTask "\"foo.sh\"" d).taskText = "foo.sh" ∧
    (mkTask "\"foo.sh\"" d).kind = .command ∧
    goHasSuffix (mkTask "\"foo.sh\"" d).taskText ".sh" = true := by
  refine ⟨?_, rfl, rfl, rfl⟩
  have hsuf : goHasSuffix s ".sh" = false := by
    unfold goHasSuffix
    rw [h]
    rfl
  simp [mkTask, Task.kind, hsuf]

/-- Witness for C8: the quoted input `"foo.sh"` (quote characters
included) ends in a double quote and is classified `Command`. -/
theorem quoted_script_classified_command_witness :
    ("\"foo.sh\"".data.reverse = '"' :: "\"foo.sh".data.reverse) ∧
    (mkTask "\"foo.sh\"" 1).kind = .command :=
  ⟨rfl,
   (quoted_script_classified_command "\"foo.sh\"" "\"foo.sh".data.reverse 1
     rfl).1⟩

/-- C9: the startup count check is asymmetric: `init` is fatal exactly
when strictly more `-task` flags than `-duration` flags were supplied,
and surplus durations are silently ignored — the run is unchanged if the
duration list is truncated to the task list's length. -/
theorem init_count_check_asymmetric (ft : List String) (fd : List Int) :
    ((initRun ft fd none).isFatal = true ↔ ft.length > fd.length) ∧
    initRun ft fd none = initRun ft (fd.take ft.length) none := by
  by_cases hgt : ft.length > fd.length
  · have htk : fd.take ft.length = fd :=
      List.take_of_length_le (Nat.le_of_lt hgt)
    unfold initRun
    rw [if_pos hgt, htk, if_pos hgt]
    simp [InitResult.isFatal, hgt]
  · have hle : ft.length ≤ fd.length := Nat.le_of_not_lt hgt
    have hlen : ¬ ft.length > (fd.take ft.length).length := by
      rw [List.length_take]
      omega
    unfold initRun
    rw [if_neg hgt, if_neg hlen, buildTasks_eq_zipWith hle, buildTasks_take_length,
      buildTasks_eq_zipWith hle]
    simp [InitResult.isFatal, hgt]

/-- Witness for C9: one task with two durations is accepted, and equals
the run with the surplus duration dropped. -/
theorem init_count_check_asymmetric_witness :
    ((initRun ["echo hi"] [5, 7] none).isFatal = true ↔
      ["echo hi"].length > ([5, 7] : List Int).length) ∧
    initRun ["echo hi"] [5, 7] none =
      initRun ["echo hi"] (([5, 7] : List Int).take ["echo hi"].length) none :=
  init_count_check_asymmetric ["echo hi"] [5, 7]

/-- C10: when the task file named by the `-file` flag cannot be opened,
startup does not abort: `parseTasksFile` logs the failure once, returns
two empty lists, and `init` proceeds exactly as if no file tasks
existed, building the flag-defined tasks only. -/
theorem taskfile_open_failure_nonfatal (ft : List String) (fd : List Int)
    (path : String) (h : ft.length ≤ fd.length) :
    (parseTasksFile .unreadable path).1 = some ([], []) ∧
    (parseTasksFile .unreadable path).2 =
      ["ERROR!: Failed to open taskfile at " ++ path ++
        ". Not running tasks defined in this file"] ∧
    initRun ft fd (some (path, .unreadable)) = initRun ft fd none ∧
    initRun ft fd (some (path, .unreadable)) =
      .ok (List.zipWith mkTask ft fd) := by
  have hgt : ¬ ft.length > fd.length := Nat.not_lt.mpr h
  refine ⟨rfl, rfl, ?_, ?_⟩
  · unfold initRun
    rw [if_neg hgt, if_neg hgt]
    simp [parseTasksFile, buildTasks_eq_zipWith h]
  · unfold initRun
    rw [if_neg hgt]
    simp [parseTasksFile, buildTasks_eq_zipWith h]

/-- Witness for C10: one flag task, an unreadable file — init succeeds
with just the flag task. -/
theorem taskfile_open_failure_nonfatal_witness :
    (parseTasksFile .unreadable "tasks.txt").1 = some ([], []) ∧
    (parseTasksFile .unreadable "tasks.txt").2 =
      ["ERROR!: Failed to open taskfile at " ++ "tasks.txt" ++
        ". Not running tasks defined in this file"] ∧
    initRun ["echo hi"] [1000] (some ("tasks.txt", .unreadable)) =
      initRun ["echo hi"] [1000] none ∧
    initRun ["echo hi"] [1000] (some ("tasks.txt", .unreadable)) =
      .ok (List.zipWith mkTask ["echo hi"] [1000]) :=
  taskfile_open_failure_nonfatal ["echo hi"] [1000] "tasks.txt" (by decide)

end SchedTasks
